import Mathlib

/-!
Verification of the vacation-rental booking application against its
specification.  The definitions below are shallow embeddings of the
TypeScript source: pure helpers become Lean functions, database rows
become structures, fallible flows return Except, and the few pieces of
logic the spec describes but the repository does not ship (the
reservation coordinator and the stay-pricing calculator) are modelled
from the specification text and marked as such in their doc comments.
-/

/-! ## Transportation pricing (TransportationBooking.calculatePrice) -/

/-- Embedding of calculatePrice from the TransportationBooking component:
a base-price table (bus 15, private_car 80, minibus 120, anything else 0
via the JS fallback) and a per-passenger multiplication only for buses. -/
def calculatePrice (transportType : String) (passengers : Nat) : Nat :=
  let basePrice :=
    if transportType = "bus" then 15
    else if transportType = "private_car" then 80
    else if transportType = "minibus" then 120
    else 0
  if transportType = "bus" then basePrice * passengers else basePrice

/-! ## Service ledger (CustomerServices.applyForService) -/

/-- The columns of the bookings row that applyForService selects. -/
structure BookingRow where
  id : String
  booking_reference : String
  user_id : String
  total_amount : ℚ
deriving DecidableEq

/-- The service_details JSON payload built by applyForService.  The
amount field is present only when the form amount string is non-empty,
modelled with Option. -/
structure ServiceDetails where
  description : String
  booking_reference : String
  amount : Option ℚ
deriving DecidableEq

/-- The customer_services row inserted by applyForService. -/
structure ServiceRecord where
  user_id : String
  booking_id : String
  service_type : String
  service_details : ServiceDetails
  expires_at : ℕ
deriving DecidableEq

/-- The single failure the code can raise before inserting: the thrown
Error message reads "Booking not found or does not belong to you", one
combined error covering both the missing-booking and the wrong-owner
cases. -/
inductive ServiceError where
  | bookingNotFoundOrNotOwner
deriving DecidableEq

/-- Embedding of getServiceDescription: a fixed description per service
type, empty string fallback. -/
def getServiceDescription (t : String) : String :=
  if t = "food_discount" then "Discount on food services and local cuisine"
  else if t = "bus_discount" then "Discount on bus and transportation services"
  else if t = "cashback" then "Cashback on completed booking"
  else if t = "promotional_gift" then "Promotional gift or bonus service"
  else ""

/-- Embedding of applyForService.  The code first queries the bookings
table filtered by booking_reference and user_id; on no row it throws,
otherwise it inserts a customer_services row whose expires_at is the
current time plus 30 days in milliseconds.  Times are Unix milliseconds
as in Date.now(). -/
def applyForService (bookings : List BookingRow) (userId serviceType bookingReference : String)
    (amount : Option ℚ) (now : ℕ) : Except ServiceError ServiceRecord :=
  match bookings.find? (fun b => decide (b.booking_reference = bookingReference ∧ b.user_id = userId)) with
  | none => .error .bookingNotFoundOrNotOwner
  | some booking =>
      .ok { user_id := userId
            booking_id := booking.id
            service_type := serviceType
            service_details :=
              { description := getServiceDescription serviceType
                booking_reference := bookingReference
                amount := amount }
            expires_at := now + 30 * 24 * 60 * 60 * 1000 }

/-! ## Customer messaging (CustomerMessaging.loadConversations / markAsRead) -/

/-- A row of the messages table as typed in CustomerMessaging. Timestamps
are Unix milliseconds. -/
structure Message where
  id : String
  conversation_id : String
  sender_id : String
  sender_type : String
  message : String
  is_read : Bool
  created_at : ℕ
deriving DecidableEq

/-- Comparator used by the sort inside loadConversations: nondecreasing
created_at. -/
def byCreatedAt (a b : Message) : Prop :=
  a.created_at ≤ b.created_at

instance : DecidableRel byCreatedAt :=
  fun a b => Nat.decLe a.created_at b.created_at

instance : IsTotal Message byCreatedAt :=
  ⟨fun a b => Nat.le_total a.created_at b.created_at⟩

instance : IsTrans Message byCreatedAt :=
  ⟨fun _ _ _ hab hbc => Nat.le_trans hab hbc⟩

/-- Sorting a message list by created_at, the JS
sort((a, b) => a.created_at - b.created_at). -/
def sortByCreatedAt (msgs : List Message) : List Message :=
  msgs.insertionSort byCreatedAt

/-- One step of the Map-building loop of loadConversations: push the
message onto the bucket of its conversation identifier, creating the
bucket at the end when the key is new (JS Map preserves insertion
order). -/
def pushMessage (acc : List (String × List Message)) (m : Message) :
    List (String × List Message) :=
  if acc.any (fun p => decide (p.1 = m.conversation_id)) then
    acc.map (fun p => if p.1 = m.conversation_id then (p.1, p.2 ++ [m]) else p)
  else
    acc ++ [(m.conversation_id, [m])]

/-- Reading a bucket of the conversation map: the value stored under the
first occurrence of the key, empty when absent. -/
def bucket (c : String) : List (String × List Message) → List Message
  | [] => []
  | p :: rest => if p.1 = c then p.2 else bucket c rest

/-- The key list of the conversation map. -/
def keys (acc : List (String × List Message)) : List String :=
  acc.map Prod.fst

/-- The Conversation objects produced by loadConversations. -/
structure Conversation where
  id : String
  messages : List Message
  lastMessage : Option Message
  unreadCount : ℕ
deriving DecidableEq

/-- Embedding of the per-conversation construction in loadConversations:
sort the bucket by created_at, take the last element as lastMessage and
count the unread team messages. -/
def mkConversation (p : String × List Message) : Conversation :=
  let sorted := sortByCreatedAt p.2
  { id := p.1
    messages := sorted
    lastMessage := sorted.getLast?
    unreadCount := (sorted.filter (fun m => (!m.is_read) && decide (m.sender_type = "team"))).length }

/-- The first query of loadConversations: the messages sent by the user,
ordered by created_at ascending. -/
def customerFetch (db : List Message) (userId : String) : List Message :=
  sortByCreatedAt (db.filter (fun m => decide (m.sender_id = userId)))

/-- The conversation map after grouping the messages of the user. -/
def customerMap (db : List Message) (userId : String) : List (String × List Message) :=
  (customerFetch db userId).foldl pushMessage []

/-- The second query of loadConversations: team messages inside the
already-known conversations, ordered by created_at ascending.  When
there are no known conversations the code skips the query, which filters
to the same empty list. -/
def teamFetch (db : List Message) (userId : String) : List Message :=
  sortByCreatedAt (db.filter (fun m =>
    decide (m.sender_type = "team") && (keys (customerMap db userId)).contains m.conversation_id))

/-- The conversation map after also grouping the fetched team messages. -/
def conversationMap (db : List Message) (userId : String) : List (String × List Message) :=
  (teamFetch db userId).foldl pushMessage (customerMap db userId)

/-- Embedding of loadConversations: both queries, the grouping loop, and
the conversion of every bucket into a Conversation object. -/
def loadConversations (db : List Message) (userId : String) : List Conversation :=
  (conversationMap db userId).map mkConversation

/-- All messages fetched by the two queries of loadConversations. -/
def fetchedMessages (db : List Message) (userId : String) : List Message :=
  customerFetch db userId ++ teamFetch db userId

/-- The row transformation performed by the markAsRead update statement
on a row it matches (conversation_id and sender_type filters) and on one
it does not. -/
def updateMessage (conversationId : String) (m : Message) : Message :=
  if m.conversation_id = conversationId ∧ m.sender_type = "team" then
    { m with is_read := true }
  else
    m

/-- Embedding of markAsRead: set is_read on the team rows of the given
conversation, leaving every other row untouched. -/
def markAsRead (conversationId : String) (db : List Message) : List Message :=
  db.map (updateMessage conversationId)

/-- A concrete two-message database used to exercise the messaging
theorems: one customer message and one unread team reply in the same
conversation, stored out of timestamp order. -/
def exampleDb : List Message :=
  [⟨"m2", "c1", "t1", "team", "hi", false, 20⟩,
   ⟨"m1", "c1", "u1", "customer", "hello", false, 10⟩]

/-- The conversation loadConversations builds from exampleDb for user u1. -/
def exampleConversation : Conversation :=
  { id := "c1"
    messages :=
      [⟨"m1", "c1", "u1", "customer", "hello", false, 10⟩,
       ⟨"m2", "c1", "t1", "team", "hi", false, 20⟩]
    lastMessage := some ⟨"m2", "c1", "t1", "team", "hi", false, 20⟩
    unreadCount := 1 }

/-- The conversation loadConversations builds from exampleDb for user u1
after conversation c1 has been marked as read. -/
def exampleConversationRead : Conversation :=
  { id := "c1"
    messages :=
      [⟨"m1", "c1", "u1", "customer", "hello", false, 10⟩,
       ⟨"m2", "c1", "t1", "team", "hi", true, 20⟩]
    lastMessage := some ⟨"m2", "c1", "t1", "team", "hi", true, 20⟩
    unreadCount := 0 }

/-! ## Chalet form (ChaletForm.handleSubmit) -/

/-- The chalet fields held in the ChaletForm state. -/
structure ChaletFormData where
  name : String
  description : String
  governorate : String
  address : String
  category : String
  price_per_day : ℚ
  max_capacity : ℕ
  features : List String
  images : List String
  has_pool : Bool
  pool_sanitized : Bool
  cleanliness_rating : ℚ
  is_active : Bool
deriving DecidableEq

/-- The payload handleSubmit builds from the form: the form fields plus
an owner_id column that is undefined for an update of an existing chalet
(undefined values are stripped from the request body) and the
authenticated user for a new chalet. -/
structure ChaletPayload where
  data : ChaletFormData
  owner_id : Option String
deriving DecidableEq

/-- Embedding of the chaletData construction in ChaletForm.handleSubmit:
owner_id is set only when no existing chalet id is present. -/
def chaletSaveData (existingId : Option String) (userId : String)
    (formData : ChaletFormData) : ChaletPayload :=
  { data := formData
    owner_id := if existingId.isSome then none else some userId }

/-- A stored chalets row: the form-editable columns plus identifier and
owner. -/
structure ChaletRow where
  id : String
  owner_id : String
  data : ChaletFormData
deriving DecidableEq

/-- The update semantics of the storage layer: every column present in
the payload overwrites the stored column; a column absent from the
payload (owner_id on updates) keeps its stored value. -/
def applyChaletUpdate (row : ChaletRow) (p : ChaletPayload) : ChaletRow :=
  { id := row.id
    owner_id := p.owner_id.getD row.owner_id
    data := p.data }

/-- Embedding of the update branch of handleSubmit acting on the row
whose id matches. -/
def handleSubmitUpdate (row : ChaletRow) (userId : String)
    (formData : ChaletFormData) : ChaletRow :=
  applyChaletUpdate row (chaletSaveData (some row.id) userId formData)

/-! ## Reservation coordinator (modelled from the spec) -/

/-- The booking status values of the Booking row type. -/
inductive BookingStatus where
  | pending
  | confirmed
  | cancelled
  | completed
deriving DecidableEq

/-- A booking as the availability logic sees it: listing reference,
half-open stay interval in day numbers, and status. -/
structure ResBooking where
  id : ℕ
  listing_id : String
  check_in : ℤ
  check_out : ℤ
  status : BookingStatus
deriving DecidableEq

/-- The half-open interval conflict condition of the spec: two stays
overlap iff each starts before the other ends. -/
def overlaps (a b : ResBooking) : Prop :=
  a.check_in < b.check_out ∧ b.check_in < a.check_out

/-- A booking counts against availability when pending or confirmed,
equivalently when not cancelled or completed. -/
def isActiveStatus : BookingStatus → Bool
  | .pending => true
  | .confirmed => true
  | .cancelled => false
  | .completed => false

/-- The no-double-booking invariant: no two distinct bookings of the same
listing that are both pending or confirmed have overlapping half-open
stay intervals. -/
def NoOverlap (bs : List ResBooking) : Prop :=
  bs.Pairwise (fun a b => a.listing_id = b.listing_id →
    isActiveStatus a.status = true → isActiveStatus b.status = true → ¬ overlaps a b)

/-- Modelled from the spec: isAvailable of the Availability Index (§4.1),
absent from the repository, which ships no conflict check.  A range is
available when no pending or confirmed booking of the listing overlaps
it. -/
def isAvailable (bs : List ResBooking) (listingId : String)
    (checkIn checkOut : ℤ) : Bool :=
  bs.all (fun b => !(decide (b.listing_id = listingId) && isActiveStatus b.status &&
    decide (b.check_in < checkOut) && decide (checkIn < b.check_out)))

/-- The reservation failures of the spec relevant to booking creation. -/
inductive ReservationError where
  | validationError
  | bookingConflict
deriving DecidableEq

/-- Modelled from the spec: createBooking of the Reservation Coordinator
(§4.3), absent from the repository.  Validate the date range, the guest
capacity and the active flag, check availability, and on success commit
a new pending booking. -/
def createBooking (bs : List ResBooking) (newId : ℕ) (listingId : String)
    (checkIn checkOut : ℤ) (guests maxCapacity : ℕ) (listingActive : Bool) :
    Except ReservationError (List ResBooking) :=
  if checkIn < checkOut ∧ guests ≤ maxCapacity ∧ listingActive = true then
    if isAvailable bs listingId checkIn checkOut then
      .ok (⟨newId, listingId, checkIn, checkOut, .pending⟩ :: bs)
    else
      .error .bookingConflict
  else
    .error .validationError

/-- Modelled from the spec: cancelBooking of the Reservation Coordinator
(§4.3), absent from the repository.  The targeted booking transitions to
cancelled, releasing its range. -/
def cancelBooking (bs : List ResBooking) (bookingId : ℕ) : List ResBooking :=
  bs.map (fun b => if b.id = bookingId then { b with status := .cancelled } else b)

/-! ## Pricing calculator (modelled from the spec) -/

/-- Modelled from the spec: a promotional service as the Pricing
Calculator reads it, with its kind, percentage, flat amount, active flag
and optional expiry; the repository ships no stay-pricing code. -/
structure PromoService where
  service_type : String
  discount_percentage : ℚ
  amount : ℚ
  is_active : Bool
  expires_at : Option ℕ
deriving DecidableEq

/-- Modelled from the spec: a service contributes only while active and
not expired at the evaluation time. -/
def serviceUsable (now : ℕ) (s : PromoService) : Bool :=
  s.is_active &&
    (match s.expires_at with
     | none => true
     | some t => decide (now < t))

/-- Modelled from the spec: rounding to 2 decimal places using
round-half-up. -/
def round2 (x : ℚ) : ℚ :=
  (⌊x * 100 + 1 / 2⌋ : ℚ) / 100

/-- Modelled from the spec: the number of nights, the date difference in
whole days with minimum 1 (dates are day numbers, so the ceiling of the
difference is the difference itself). -/
def nightsOf (checkIn checkOut : ℤ) : ℕ :=
  max (checkOut - checkIn).toNat 1

/-- The price breakdown computePrice returns. -/
structure PriceBreakdown where
  subtotal : ℚ
  discount : ℚ
  cashback : ℚ
  total : ℚ
deriving DecidableEq

/-- Modelled from the spec: computePrice of the Pricing Calculator
(§4.2), absent from the repository.  Subtotal is price-per-day times
nights; the active non-expired discount percentages apply to the
subtotal, capped at the subtotal; cashback applies against the
post-discount total, never below zero. -/
def computePrice (pricePerDay : ℚ) (checkIn checkOut : ℤ) (_guests : ℕ)
    (services : List PromoService) (now : ℕ) : PriceBreakdown :=
  let subtotal := pricePerDay * (nightsOf checkIn checkOut : ℚ)
  let discountPct := ((services.filter (fun s =>
    (s.service_type == "food_discount" || s.service_type == "bus_discount") &&
      serviceUsable now s)).map (fun s => s.discount_percentage)).sum
  let discount := min (round2 (subtotal * discountPct / 100)) subtotal
  let afterDiscount := subtotal - discount
  let cashbackRaw := ((services.filter (fun s =>
    s.service_type == "cashback" && serviceUsable now s)).map (fun s => s.amount)).sum
  let cashback := min cashbackRaw afterDiscount
  { subtotal := subtotal
    discount := discount
    cashback := cashback
    total := afterDiscount - cashback }

/-- C2: transportation price is base price times passengers for buses and
the flat base price otherwise, with bases bus 15, private_car 80,
minibus 120; in particular bus with 4 passengers costs 60. -/
theorem calculatePrice_spec :
    (∀ p : Nat, calculatePrice "bus" p = 15 * p) ∧
    (∀ p : Nat, calculatePrice "private_car" p = 80) ∧
    (∀ p : Nat, calculatePrice "minibus" p = 120) ∧
    calculatePrice "bus" 4 = 60 := by
  refine ⟨fun p => ?_, fun p => ?_, fun p => ?_, by decide⟩ <;>
    simp [calculatePrice]

/-- C10: for a transport type outside the three known ones, calculatePrice
totals to 0 for every passenger count instead of failing. -/
theorem calculatePrice_unknown_type (t : String) (p : Nat)
    (h1 : t ≠ "bus") (h2 : t ≠ "private_car") (h3 : t ≠ "minibus") :
    calculatePrice t p = 0 := by
  simp [calculatePrice, h1, h2, h3]

/-- Witness for C10 at the concrete unknown type "helicopter". -/
theorem calculatePrice_unknown_type_witness : calculatePrice "helicopter" 5 = 0 :=
  calculatePrice_unknown_type "helicopter" 5 (by decide) (by decide) (by decide)

/-- C3: the code performs no amount validation for cashback applications.
At a booking with total 100 and a requested cashback amount of 150 the
application succeeds and a service record carrying amount 150 is
created, although 150 exceeds the booking total. -/
theorem applyForService_no_amount_validation :
    (applyForService [⟨"b1", "FR-AAAA1111", "u1", 100⟩]
        "u1" "cashback" "FR-AAAA1111" (some 150) 0 =
      .ok { user_id := "u1"
            booking_id := "b1"
            service_type := "cashback"
            service_details :=
              { description := "Cashback on completed booking"
                booking_reference := "FR-AAAA1111"
                amount := some 150 }
            expires_at := 2592000000 }) ∧
    (150 : ℚ) > 100 := by
  constructor
  · rfl
  · norm_num

/-- C4: whenever applyForService succeeds, the inserted service record
expires exactly 30 days (in milliseconds) after the creation time, for
every service type. -/
theorem applyForService_expiry (bookings : List BookingRow)
    (userId serviceType bookingReference : String) (amount : Option ℚ) (now : ℕ)
    (rec : ServiceRecord)
    (h : applyForService bookings userId serviceType bookingReference amount now = .ok rec) :
    rec.expires_at = now + 30 * 24 * 60 * 60 * 1000 := by
  unfold applyForService at h
  cases hf : bookings.find?
      (fun b => decide (b.booking_reference = bookingReference ∧ b.user_id = userId)) with
  | none => rw [hf] at h; exact absurd h (by simp)
  | some booking =>
      rw [hf] at h
      cases h
      rfl

/-- Witness for C4 at a concrete successful application. -/
theorem applyForService_expiry_witness :
    ServiceRecord.expires_at
      { user_id := "u1"
        booking_id := "b1"
        service_type := "food_discount"
        service_details :=
          { description := "Discount on food services and local cuisine"
            booking_reference := "FR-AAAA1111"
            amount := none }
        expires_at := 2592001000 } = 1000 + 30 * 24 * 60 * 60 * 1000 :=
  applyForService_expiry [⟨"b1", "FR-AAAA1111", "u1", 100⟩]
    "u1" "food_discount" "FR-AAAA1111" none 1000 _ (by rfl)

/-- C5: applyForService fails with the combined not-found-or-not-owner
error, inserting nothing, when no booking carries the given reference or
when every booking with that reference belongs to another user; and any
successful application comes from a booking that exists and belongs to
the requesting user. -/
theorem applyForService_ownership (bookings : List BookingRow)
    (userId serviceType bookingReference : String) (amount : Option ℚ) (now : ℕ) :
    ((∀ b ∈ bookings, b.booking_reference ≠ bookingReference) →
      applyForService bookings userId serviceType bookingReference amount now =
        .error .bookingNotFoundOrNotOwner) ∧
    ((∀ b ∈ bookings, b.booking_reference = bookingReference → b.user_id ≠ userId) →
      applyForService bookings userId serviceType bookingReference amount now =
        .error .bookingNotFoundOrNotOwner) ∧
    (∀ rec : ServiceRecord,
      applyForService bookings userId serviceType bookingReference amount now = .ok rec →
      ∃ b ∈ bookings, b.booking_reference = bookingReference ∧ b.user_id = userId ∧
        rec.booking_id = b.id) := by
  refine ⟨fun hnone => ?_, fun hother => ?_, fun rec hok => ?_⟩
  · unfold applyForService
    rw [List.find?_eq_none.mpr]
    intro b hb
    simp only [decide_eq_true_eq, not_and]
    intro hr
    exact absurd hr (hnone b hb)
  · unfold applyForService
    rw [List.find?_eq_none.mpr]
    intro b hb
    simp only [decide_eq_true_eq, not_and]
    intro hr
    exact hother b hb hr
  · unfold applyForService at hok
    cases hf : bookings.find?
        (fun b => decide (b.booking_reference = bookingReference ∧ b.user_id = userId)) with
    | none => rw [hf] at hok; exact absurd hok (by simp)
    | some booking =>
        rw [hf] at hok
        cases hok
        have hmem := List.mem_of_find?_eq_some hf
        have hp := List.find?_some hf
        simp only [decide_eq_true_eq] at hp
        exact ⟨booking, hmem, hp.1, hp.2, rfl⟩

/-- Witness for C5: a reference present in the table but owned by a
different user is rejected with the combined error. -/
theorem applyForService_ownership_witness :
    applyForService [⟨"b1", "FR-AAAA1111", "u1", 100⟩]
        "u2" "cashback" "FR-AAAA1111" none 0 =
      .error .bookingNotFoundOrNotOwner :=
  (applyForService_ownership [⟨"b1", "FR-AAAA1111", "u1", 100⟩]
      "u2" "cashback" "FR-AAAA1111" none 0).2.1 (by decide)

/-! ## Lemmas about the conversation map of loadConversations -/

/-- Reading a bucket past an appended fresh pair: the prior buckets win,
and the appended pair is only read when its key was absent. -/
theorem bucket_append_single (c k : String) (l : List Message)
    (acc : List (String × List Message)) :
    bucket c (acc ++ [(k, l)]) =
      if acc.any (fun p => decide (p.1 = c)) then bucket c acc
      else if k = c then l else [] := by
  induction acc with
  | nil => simp [bucket]
  | cons p rest ih =>
      by_cases hp : p.1 = c
      · simp [bucket, hp]
      · have hdec : (decide (p.1 = c)) = false := by simp [hp]
        rw [List.cons_append, bucket, if_neg hp, ih, List.any_cons, hdec, Bool.false_or,
          bucket, if_neg hp]

/-- A key that never occurs has an empty bucket. -/
theorem bucket_eq_nil (c : String) (acc : List (String × List Message))
    (h : acc.any (fun p => decide (p.1 = c)) = false) :
    bucket c acc = [] := by
  induction acc with
  | nil => rfl
  | cons p rest ih =>
      rw [List.any_cons, Bool.or_eq_false_iff] at h
      have hp : p.1 ≠ c := by simpa using h.1
      rw [bucket, if_neg hp]
      exact ih h.2

/-- Appending a message to the buckets of its conversation leaves every
other bucket unchanged. -/
theorem bucket_map_ne (c : String) (m : Message)
    (acc : List (String × List Message)) (hne : m.conversation_id ≠ c) :
    bucket c (acc.map (fun p =>
      if p.1 = m.conversation_id then (p.1, p.2 ++ [m]) else p)) = bucket c acc := by
  induction acc with
  | nil => rfl
  | cons p rest ih =>
      have hne' : c ≠ m.conversation_id := Ne.symm hne
      by_cases hp : p.1 = m.conversation_id
      · have hpc : p.1 ≠ c := fun hc => hne (hp ▸ hc)
        simp [bucket, hp, hpc, hne, hne', ih]
      · by_cases hpc : p.1 = c <;> simp [bucket, hp, hpc, hne, hne', ih]

/-- Appending a message to the buckets of its conversation appends it to
the bucket actually read, provided the key is present. -/
theorem bucket_map_self (m : Message) (acc : List (String × List Message))
    (hmem : acc.any (fun p => decide (p.1 = m.conversation_id)) = true) :
    bucket m.conversation_id (acc.map (fun p =>
      if p.1 = m.conversation_id then (p.1, p.2 ++ [m]) else p)) =
      bucket m.conversation_id acc ++ [m] := by
  induction acc with
  | nil => simp at hmem
  | cons p rest ih =>
      by_cases hp : p.1 = m.conversation_id
      · simp [bucket, hp]
      · rw [List.any_cons] at hmem
        have hrest : rest.any (fun p => decide (p.1 = m.conversation_id)) = true := by
          simpa [hp] using hmem
        simp [bucket, hp, ih hrest]

/-- One push step changes exactly the bucket of the pushed message, by
appending the message to it. -/
theorem bucket_pushMessage (c : String) (acc : List (String × List Message))
    (m : Message) :
    bucket c (pushMessage acc m) =
      bucket c acc ++ if m.conversation_id = c then [m] else [] := by
  unfold pushMessage
  by_cases hany : acc.any (fun p => decide (p.1 = m.conversation_id)) = true
  · rw [if_pos hany]
    by_cases hc : m.conversation_id = c
    · subst hc
      rw [bucket_map_self m acc hany, if_pos rfl]
    · rw [bucket_map_ne c m acc hc, if_neg hc, List.append_nil]
  · have hanyf : acc.any (fun p => decide (p.1 = m.conversation_id)) = false :=
      Bool.eq_false_iff.mpr hany
    rw [if_neg hany, bucket_append_single]
    by_cases hc : m.conversation_id = c
    · subst hc
      rw [if_neg (by simp [hanyf]), if_pos rfl, bucket_eq_nil _ _ hanyf]
      rfl
    · rw [if_neg hc, List.append_nil]
      by_cases hc2 : acc.any (fun p => decide (p.1 = c)) = true
      · rw [if_pos hc2]
      · rw [if_neg hc2, bucket_eq_nil _ _ (Bool.eq_false_iff.mpr hc2)]

/-- Folding the grouping loop over a message list appends, to every
bucket, exactly the messages of that conversation, in order. -/
theorem bucket_foldl (c : String) (msgs : List Message)
    (acc : List (String × List Message)) :
    bucket c (msgs.foldl pushMessage acc) =
      bucket c acc ++ msgs.filter (fun m => decide (m.conversation_id = c)) := by
  induction msgs generalizing acc with
  | nil => simp
  | cons m ms ih =>
      rw [List.foldl_cons, ih, bucket_pushMessage]
      by_cases h : m.conversation_id = c <;>
        simp [h, List.filter_cons]

/-- The keys after a push step: unchanged for a known conversation,
extended at the end for a new one. -/
theorem keys_pushMessage (acc : List (String × List Message)) (m : Message) :
    keys (pushMessage acc m) =
      if acc.any (fun p => decide (p.1 = m.conversation_id)) then keys acc
      else keys acc ++ [m.conversation_id] := by
  unfold pushMessage keys
  by_cases h : acc.any (fun p => decide (p.1 = m.conversation_id)) = true
  · rw [if_pos h, if_pos h, List.map_map]
    apply List.map_congr_left
    intro p _
    by_cases hp : p.1 = m.conversation_id <;> simp [hp]
  · rw [if_neg h, if_neg h]
    simp

/-- A push step preserves distinctness of the conversation keys. -/
theorem keys_nodup_pushMessage (acc : List (String × List Message)) (m : Message)
    (h : (keys acc).Nodup) : (keys (pushMessage acc m)).Nodup := by
  rw [keys_pushMessage]
  by_cases hany : acc.any (fun p => decide (p.1 = m.conversation_id)) = true
  · rw [if_pos hany]; exact h
  · rw [if_neg hany]
    have hnotmem : m.conversation_id ∉ keys acc := by
      intro hmem
      apply hany
      rw [List.any_eq_true]
      rcases List.mem_map.mp hmem with ⟨p, hp, hpeq⟩
      exact ⟨p, hp, by simp [hpeq]⟩
    simp [List.nodup_append, h, hnotmem]

/-- The grouping fold preserves distinctness of the conversation keys. -/
theorem keys_nodup_foldl (msgs : List Message) (acc : List (String × List Message))
    (h : (keys acc).Nodup) : (keys (msgs.foldl pushMessage acc)).Nodup := by
  induction msgs generalizing acc with
  | nil => exact h
  | cons m ms ih => exact ih _ (keys_nodup_pushMessage _ _ h)

/-- With distinct keys, every stored pair is the bucket of its key. -/
theorem snd_eq_bucket (acc : List (String × List Message))
    (p : String × List Message) (hnd : (keys acc).Nodup) (hp : p ∈ acc) :
    p.2 = bucket p.1 acc := by
  induction acc with
  | nil => cases hp
  | cons q rest ih =>
      rw [keys, List.map_cons, List.nodup_cons] at hnd
      rcases List.mem_cons.mp hp with heq | hmem
      · subst heq
        simp [bucket]
      · have hne : q.1 ≠ p.1 := by
          intro hq
          exact hnd.1 (hq ▸ List.mem_map.mpr ⟨p, hmem, rfl⟩)
        rw [bucket, if_neg hne]
        exact ih hnd.2 hmem

/-- The conversation map has distinct keys. -/
theorem keys_nodup_conversationMap (db : List Message) (userId : String) :
    (keys (conversationMap db userId)).Nodup :=
  keys_nodup_foldl _ _ (keys_nodup_foldl _ _ (by simp [keys]))

/-- Every bucket of the final conversation map holds exactly the fetched
messages of that conversation. -/
theorem bucket_conversationMap (db : List Message) (userId c : String) :
    bucket c (conversationMap db userId) =
      (fetchedMessages db userId).filter (fun m => decide (m.conversation_id = c)) := by
  unfold conversationMap customerMap fetchedMessages
  rw [bucket_foldl, bucket_foldl, List.filter_append]
  rfl

/-- A member of a bucket comes from a stored pair with that key. -/
theorem exists_of_mem_bucket (c : String) (acc : List (String × List Message))
    (m : Message) (h : m ∈ bucket c acc) : ∃ p ∈ acc, p.1 = c ∧ m ∈ p.2 := by
  induction acc with
  | nil => cases h
  | cons q rest ih =>
      by_cases hq : q.1 = c
      · rw [bucket, if_pos hq] at h
        exact ⟨q, List.mem_cons_self q rest, hq, h⟩
      · rw [bucket, if_neg hq] at h
        obtain ⟨p, hp, h1, h2⟩ := ih h
        exact ⟨p, List.mem_cons_of_mem _ hp, h1, h2⟩

/-- Characterization of every conversation object loadConversations
returns: its message list is the sorted fetched messages of its own
conversation identifier, its lastMessage is the last element of that
list, and its unreadCount counts its unread team messages. -/
theorem conv_characterization (db : List Message) (userId : String)
    (conv : Conversation) (h : conv ∈ loadConversations db userId) :
    conv.messages = sortByCreatedAt ((fetchedMessages db userId).filter
      (fun m => decide (m.conversation_id = conv.id))) ∧
    conv.lastMessage = conv.messages.getLast? ∧
    conv.unreadCount = (conv.messages.filter
      (fun m => (!m.is_read) && decide (m.sender_type = "team"))).length := by
  unfold loadConversations at h
  rcases List.mem_map.mp h with ⟨p, hpmem, hpeq⟩
  have hb := snd_eq_bucket _ p (keys_nodup_conversationMap db userId) hpmem
  subst hpeq
  refine ⟨?_, rfl, rfl⟩
  show sortByCreatedAt p.2 = _
  have hid : (mkConversation p).id = p.1 := rfl
  rw [hid, hb, bucket_conversationMap]

/-- The fetched messages all come from the messages table. -/
theorem mem_of_mem_fetchedMessages (db : List Message) (userId : String)
    (m : Message) (h : m ∈ fetchedMessages db userId) : m ∈ db := by
  unfold fetchedMessages customerFetch teamFetch sortByCreatedAt at h
  rcases List.mem_append.mp h with h1 | h1 <;>
    · rw [List.mem_insertionSort] at h1
      exact (List.mem_filter.mp h1).1

/-- C7: every conversation returned by loadConversations has its message
list sorted by nondecreasing created_at, its lastMessage is the final
element of that sorted list, its messages are exactly the fetched
messages of its own conversation identifier, and every fetched message
lands in some returned conversation. -/
theorem loadConversations_spec (db : List Message) (userId : String)
    (conv : Conversation) (h : conv ∈ loadConversations db userId) :
    List.Sorted byCreatedAt conv.messages ∧
    conv.lastMessage = conv.messages.getLast? ∧
    conv.messages.Perm ((fetchedMessages db userId).filter
      (fun m => decide (m.conversation_id = conv.id))) ∧
    ∀ m ∈ fetchedMessages db userId,
      ∃ c, c ∈ loadConversations db userId ∧ m ∈ c.messages := by
  obtain ⟨hmsgs, hlast, _⟩ := conv_characterization db userId conv h
  refine ⟨?_, hlast, ?_, ?_⟩
  · rw [hmsgs]
    exact List.sorted_insertionSort byCreatedAt _
  · rw [hmsgs]
    exact List.perm_insertionSort byCreatedAt _
  · intro m hm
    have hbuck : m ∈ bucket m.conversation_id (conversationMap db userId) := by
      rw [bucket_conversationMap]
      exact List.mem_filter.mpr ⟨hm, by simp⟩
    obtain ⟨p, hpmem, _, hpm⟩ := exists_of_mem_bucket _ _ _ hbuck
    refine ⟨mkConversation p, List.mem_map.mpr ⟨p, hpmem, rfl⟩, ?_⟩
    show m ∈ sortByCreatedAt p.2
    rw [sortByCreatedAt, List.mem_insertionSort]
    exact hpm

/-- Witness for C7 on the concrete two-message database. -/
theorem loadConversations_spec_witness :
    List.Sorted byCreatedAt exampleConversation.messages ∧
    exampleConversation.lastMessage = exampleConversation.messages.getLast? ∧
    exampleConversation.messages.Perm ((fetchedMessages exampleDb "u1").filter
      (fun m => decide (m.conversation_id = exampleConversation.id))) ∧
    ∀ m ∈ fetchedMessages exampleDb "u1",
      ∃ c, c ∈ loadConversations exampleDb "u1" ∧ m ∈ c.messages :=
  loadConversations_spec exampleDb "u1" exampleConversation (by decide)

/-- C8: markAsRead maps every row through updateMessage, which sets
is_read exactly on the team rows of the targeted conversation and leaves
every other row and every other field untouched; afterwards the
unreadCount loadConversations computes for that conversation is 0. -/
theorem markAsRead_spec (db : List Message) (conversationId userId : String) :
    markAsRead conversationId db = db.map (updateMessage conversationId) ∧
    (∀ m : Message, m.conversation_id = conversationId → m.sender_type = "team" →
      updateMessage conversationId m = { m with is_read := true }) ∧
    (∀ m : Message, ¬(m.conversation_id = conversationId ∧ m.sender_type = "team") →
      updateMessage conversationId m = m) ∧
    (∀ conv ∈ loadConversations (markAsRead conversationId db) userId,
      conv.id = conversationId → conv.unreadCount = 0) := by
  refine ⟨rfl, fun m h1 h2 => ?_, fun m hno => ?_, fun conv hconv hid => ?_⟩
  · rw [updateMessage, if_pos ⟨h1, h2⟩]
  · rw [updateMessage, if_neg hno]
  · obtain ⟨hmsgs, _, hunread⟩ := conv_characterization _ _ _ hconv
    rw [hunread, List.length_eq_zero, List.filter_eq_nil_iff]
    intro m hm
    rw [hmsgs, sortByCreatedAt, List.mem_insertionSort] at hm
    obtain ⟨hfetch, hcid⟩ := List.mem_filter.mp hm
    have hcid' : m.conversation_id = conversationId :=
      (of_decide_eq_true hcid).trans hid
    have hdb : m ∈ markAsRead conversationId db :=
      mem_of_mem_fetchedMessages _ _ _ hfetch
    rw [markAsRead] at hdb
    obtain ⟨m0, hm0, hup⟩ := List.mem_map.mp hdb
    by_cases hteam : m.sender_type = "team"
    · have hread : m.is_read = true := by
        by_cases hcond : m0.conversation_id = conversationId ∧ m0.sender_type = "team"
        · rw [updateMessage, if_pos hcond] at hup
          rw [← hup]
        · rw [updateMessage, if_neg hcond] at hup
          subst hup
          exact absurd ⟨hcid', hteam⟩ hcond
      simp [hread]
    · simp [hteam]

/-- Witness for C8: after marking conversation c1 of the concrete
database as read, the conversation built for it has unreadCount 0. -/
theorem markAsRead_spec_witness : exampleConversationRead.unreadCount = 0 :=
  (markAsRead_spec exampleDb "c1" "u1").2.2.2 exampleConversationRead
    (by decide) (by decide)

/-- C9: the update payload of handleSubmit carries no owner_id, so an
update leaves the stored owner (and the row identity) unchanged, while
the insert payload for a new chalet sets owner_id to the authenticated
user; neither branch can transfer a chalet to a different owner. -/
theorem chaletForm_owner_preserved (row : ChaletRow) (userId : String)
    (formData : ChaletFormData) :
    (chaletSaveData (some row.id) userId formData).owner_id = none ∧
    (handleSubmitUpdate row userId formData).owner_id = row.owner_id ∧
    (handleSubmitUpdate row userId formData).id = row.id ∧
    (chaletSaveData none userId formData).owner_id = some userId :=
  ⟨rfl, rfl, rfl, rfl⟩

/-- C1: starting from a state satisfying the no-overlap invariant, every
successful createBooking commit and every cancelBooking keep the
invariant: no two distinct pending-or-confirmed bookings of a listing
ever hold overlapping half-open intervals. -/
theorem noOverlap_preserved (bs : List ResBooking) (h : NoOverlap bs) :
    (∀ (newId : ℕ) (listingId : String) (checkIn checkOut : ℤ)
        (guests maxCapacity : ℕ) (listingActive : Bool) (bs2 : List ResBooking),
      createBooking bs newId listingId checkIn checkOut guests maxCapacity
          listingActive = .ok bs2 →
      NoOverlap bs2) ∧
    (∀ bookingId : ℕ, NoOverlap (cancelBooking bs bookingId)) := by
  constructor
  · intro newId listingId checkIn checkOut guests maxCapacity listingActive bs2 hok
    unfold createBooking at hok
    by_cases hpre : checkIn < checkOut ∧ guests ≤ maxCapacity ∧ listingActive = true
    · rw [if_pos hpre] at hok
      by_cases havail : isAvailable bs listingId checkIn checkOut = true
      · rw [if_pos havail] at hok
        cases hok
        rw [NoOverlap, List.pairwise_cons]
        refine ⟨?_, h⟩
        intro b hb hlisting _ hact2 hov
        unfold isAvailable at havail
        rw [List.all_eq_true] at havail
        have hbfalse := havail b hb
        simp only [Bool.not_eq_eq_eq_not, Bool.not_true, Bool.and_eq_false_imp,
          decide_eq_true_eq, Bool.and_eq_true, decide_eq_false_iff_not] at hbfalse
        rcases hov with ⟨h1, h2⟩
        exact absurd h1 (hbfalse ⟨⟨hlisting.symm, hact2⟩, h2⟩)
      · rw [if_neg havail] at hok
        exact absurd hok (by simp)
    · rw [if_neg hpre] at hok
      exact absurd hok (by simp)
  · intro bookingId
    rw [NoOverlap]
    unfold cancelBooking
    refine List.Pairwise.map _ ?_ h
    intro a b hr
    by_cases ha : a.id = bookingId
    · intro _ hact1
      rw [if_pos ha] at hact1
      simp [isActiveStatus] at hact1
    · rw [if_neg ha]
      by_cases hb : b.id = bookingId
      · intro _ _ hact2
        rw [if_pos hb] at hact2
        simp [isActiveStatus] at hact2
      · rw [if_neg hb]
        exact hr

/-- Witness for C1: the invariant of a one-booking state survives a
createBooking commit of the adjacent range. -/
theorem noOverlap_preserved_witness :
    NoOverlap [ResBooking.mk 2 "farm1" 3 5 .pending,
      ResBooking.mk 1 "farm1" 0 3 .pending] :=
  (noOverlap_preserved [ResBooking.mk 1 "farm1" 0 3 .pending]
      (by unfold NoOverlap; exact List.pairwise_singleton _ _)).1
    2 "farm1" 3 5 2 4 true _ (by rfl)

/-- C6: the subtotal computePrice returns is price-per-day times the
number of nights (difference of day numbers, minimum 1); and for a
listing at 50 per day, the stay 2025-06-01 to 2025-06-04 (day numbers
20240 and 20243, 3 nights) with one active 10 percent food_discount
yields subtotal 150, discount 15 and total 135. -/
theorem computePrice_spec :
    (∀ (pricePerDay : ℚ) (checkIn checkOut : ℤ) (guests : ℕ)
        (services : List PromoService) (now : ℕ),
      (computePrice pricePerDay checkIn checkOut guests services now).subtotal =
        pricePerDay * ((max (checkOut - checkIn).toNat 1 : ℕ) : ℚ)) ∧
    computePrice 50 20240 20243 4 [⟨"food_discount", 10, 0, true, none⟩] 0 =
      { subtotal := 150, discount := 15, cashback := 0, total := 135 } := by
  constructor
  · intro pricePerDay checkIn checkOut guests services now
    rfl
  · have hnights : nightsOf 20240 20243 = 3 := by rfl
    have hnofood : (List.filter (fun s =>
        s.service_type == "cashback" && serviceUsable 0 s)
        [(⟨"food_discount", 10, 0, true, none⟩ : PromoService)]) = [] := by rfl
    have hfood : (List.filter (fun s =>
        (s.service_type == "food_discount" || s.service_type == "bus_discount") &&
          serviceUsable 0 s)
        [(⟨"food_discount", 10, 0, true, none⟩ : PromoService)]) =
        [⟨"food_discount", 10, 0, true, none⟩] := by rfl
    unfold computePrice
    rw [hnights, hnofood, hfood]
    norm_num [round2, min_def]
